import Mathlib

/-!
Verification of the BeeGreen notification service core
(`test_server/notifications`): payload normalization, timestamp
extraction, freshness evaluation, state classification, event routing
and notification-data construction.

Python source functions are embedded as executable Lean definitions.
Python standard-library collaborators (`json.loads`, `str.strip`,
`str.lower`, `datetime.strptime`, `datetime.fromtimestamp`) are
modelled explicitly; each model's doc comment says what it models.
-/

namespace BeeGreen

/-! ## Python string primitives -/

/-- Models Python `str.lower()` restricted to ASCII (all vocabulary and
payload tokens in this system are ASCII). -/
def pyLower (s : String) : String :=
  String.mk (s.toList.map Char.toLower)

/-- Characters stripped by Python `str.strip()` (ASCII whitespace). -/
def pyIsSpace (c : Char) : Bool :=
  c == ' ' || c == '\t' || c == '\n' || c == '\r' || c == '\x0b' || c == '\x0c'

/-- Models Python `str.strip()`: remove leading and trailing whitespace. -/
def pyStrip (s : String) : String :=
  String.mk (((s.toList.dropWhile pyIsSpace).reverse.dropWhile pyIsSpace).reverse)

/-! ## State classifier (`payload_parser.is_truthy` / `is_falsy`) -/

/-- Embeds `payload_parser.is_truthy`: membership of the parsed value in
the affirmative vocabulary. -/
def is_truthy (value : String) : Bool :=
  value == "1" || value == "on" || value == "true" || value == "online" ||
  value == "connected" || value == "started" || value == "yes" || value == "active"

/-- Embeds `payload_parser.is_falsy`: membership of the parsed value in
the negative vocabulary. -/
def is_falsy (value : String) : Bool :=
  value == "0" || value == "off" || value == "false" || value == "offline" ||
  value == "disconnected" || value == "stopped" || value == "no" || value == "inactive"

/-- StateClass of the spec: Affirmative / Negative / Ambiguous. -/
inductive StateClass where
  | affirmative
  | negative
  | ambiguous
deriving DecidableEq, Repr

/-- The spec's `classify`, realised in the code by the pair
`is_truthy` / `is_falsy` (the vocabularies are disjoint, so the order
of the two tests does not matter). -/
def classify (value : String) : StateClass :=
  if is_truthy value then .affirmative
  else if is_falsy value then .negative
  else .ambiguous

/-! ## Event router (`mqtt_handler.on_message` decision structure) -/

/-- EventCategory derived from the topic suffix. -/
inductive EventCategory where
  | pumpStatus
  | connectivityStatus
  | unrecognized
deriving DecidableEq, Repr

/-- Notification intent types the router can emit. -/
inductive NotificationType where
  | pumpStart
  | pumpStop
  | deviceOnline
  | deviceOffline
deriving DecidableEq, Repr

/-- Embeds the topic dispatch of `on_message`: `topic.endswith('/pump_status')`
is tested first, then `topic.endswith('/status')`. -/
def topicCategory (topic : String) : EventCategory :=
  if topic.endsWith "/pump_status" then .pumpStatus
  else if topic.endsWith "/status" then .connectivityStatus
  else .unrecognized

/-- Embeds the per-message decision structure of `on_message`
(mqtt_handler.py lines 73-113), with the freshness check
`is_message_recent(timestamp)` abstracted into the boolean `fresh`:

* pump branch: return early when stale, then `is_truthy` ⇒ pump_start,
  `is_falsy` ⇒ pump_stop, otherwise nothing;
* connectivity branch: `is_offline = is_falsy(payload)`; return early
  when not offline and stale; then `is_truthy` ⇒ device_online,
  `is_offline` ⇒ device_offline, otherwise nothing;
* any other topic: nothing. -/
def route (category : EventCategory) (value : String) (fresh : Bool) :
    Option NotificationType :=
  match category with
  | .pumpStatus =>
    if !fresh then none
    else if is_truthy value then some .pumpStart
    else if is_falsy value then some .pumpStop
    else none
  | .connectivityStatus =>
    if !(is_falsy value) && !fresh then none
    else if is_truthy value then some .deviceOnline
    else if is_falsy value then some .deviceOffline
    else none
  | .unrecognized => none

/-! ## JSON value model (result of `json.loads`) -/

/-- Python float modelled as a decimal number `man * 10 ^ exp`. All
floats in this system come from JSON decimal literals, whose Python
`str()` form is the shortest decimal; the canonical decimal (mantissa
not a multiple of ten) captures exactly that string. -/
structure DecFloat where
  man : Int
  exp : Int
deriving DecidableEq

/-- Strip factors of ten from the mantissa into the exponent, with
fuel. -/
def stripZeros : Nat → Int → Int → Int × Int
  | 0, m, e => (m, e)
  | f+1, m, e => if m % 10 = 0 then stripZeros f (m / 10) (e + 1) else (m, e)

/-- Build a canonical decimal float. -/
def mkDecFloat (man exp : Int) : DecFloat :=
  if man = 0 then ⟨0, 0⟩
  else
    let p := stripZeros man.natAbs man exp
    ⟨p.1, p.2⟩

/-- Models Python `float.is_integer()` on the decimal model. Exact for
floats whose decimal literal is exactly representable in binary64;
binary rounding of other literals (a floating-point artefact) is not
modelled. -/
def DecFloat.isInteger (f : DecFloat) : Bool :=
  0 ≤ f.exp

/-- Models Python `int()` truncation of an integral float, exactly for
decimals representable in binary64; overflow of the double itself is
not modelled. -/
def DecFloat.trunc (f : DecFloat) : Int :=
  f.man * 10 ^ f.exp.toNat

/-- Scientific-notation rendering `d.ddd` followed by a signed
two-digit-minimum exponent, as CPython float repr produces. -/
def decFloatSci (neg : Bool) (ds : List Char) (e10 : Int) : String :=
  let mant :=
    match ds with
    | [] => "0"
    | [d] => String.mk [d]
    | d :: rest => String.mk [d] ++ "." ++ String.mk rest
  let esign := if e10 < 0 then "-" else "+"
  let eabs := (if e10 < 0 then -e10 else e10).toNat
  let edig := if eabs < 10 then "0" ++ toString eabs else toString eabs
  (if neg then "-" else "") ++ mant ++ "e" ++ esign ++ edig

/-- Models Python `str()` of a finite float whose shortest repr equals
its exact decimal (true of every decimal literal representable in
binary64): positional form, switching to scientific notation when the
leading-digit decimal exponent is below -4 or at least 16, as CPython
does. -/
def decFloatStr (f : DecFloat) : String :=
  let sign := if f.man < 0 then "-" else ""
  let ds := (toString f.man.natAbs).toList
  let e10 : Int := (ds.length : Int) - 1 + f.exp
  if e10 < -4 || 16 ≤ e10 then decFloatSci (f.man < 0) ds e10
  else if 0 ≤ f.exp then
    sign ++ String.mk ds ++ String.mk (List.replicate f.exp.toNat '0') ++ ".0"
  else
    let k := (-f.exp).toNat
    if k < ds.length then
      sign ++ String.mk (ds.take (ds.length - k)) ++ "." ++ String.mk (ds.drop (ds.length - k))
    else
      sign ++ "0." ++ String.mk (List.replicate (k - ds.length) '0') ++ String.mk ds

/-- Python float value: a finite decimal, an infinity or a NaN.
`json.loads` produces the non-finite values from its default
`NaN`/`Infinity`/`-Infinity` constants. -/
inductive PyFloat where
  | finite (f : DecFloat)
  | inf
  | negInf
  | nan
deriving DecidableEq

/-- Python number resulting from JSON decoding: `int` for integer
literals, `float` for literals with a fraction or exponent part and
for the non-finite constants. -/
inductive PyNum where
  | int (n : Int)
  | float (x : PyFloat)
deriving DecidableEq

/-- Python value resulting from `json.loads`: JSON null decodes to
Python `None`, which is the same object the code uses to signal
absence. -/
inductive JsonValue where
  | null
  | bool (b : Bool)
  | num (n : PyNum)
  | str (s : String)
  | arr (elems : List JsonValue)
  | obj (fields : List (String × JsonValue))

/-- JSON inter-token whitespace. -/
def jsonWsChar (c : Char) : Bool :=
  c == ' ' || c == '\t' || c == '\n' || c == '\r'

/-- Skip JSON whitespace. -/
def skipWs (cs : List Char) : List Char :=
  cs.dropWhile jsonWsChar

/-- Numeric value of a digit string. -/
def digitsVal (ds : List Char) : Nat :=
  ds.foldl (fun a c => a * 10 + (c.toNat - 48)) 0

/-- Hexadecimal digit test. -/
def isHexDigitChar (c : Char) : Bool :=
  c.isDigit || ('a' ≤ c && c ≤ 'f') || ('A' ≤ c && c ≤ 'F')

/-- Value of a hexadecimal digit. -/
def hexVal (c : Char) : Nat :=
  if c.isDigit then c.toNat - 48
  else if c.toNat ≥ 97 then c.toNat - 87
  else c.toNat - 55

/-- JSON string escape characters (the two-character escapes accepted
by the stdlib decoder). -/
def escapeChar : Char → Option Char
  | '"' => some '"'
  | '\\' => some '\\'
  | '/' => some '/'
  | 'b' => some '\x08'
  | 'f' => some '\x0c'
  | 'n' => some '\n'
  | 'r' => some '\r'
  | 't' => some '\t'
  | _ => none

/-- Parse the body of a JSON string (after the opening quote), with
fuel. Models the stdlib decoder; a surrogate pair of `\u` escapes is
combined into the astral code point as Python does. A lone surrogate,
which Python keeps in its string, has no Lean `Char` counterpart and
decodes to U+FFFD (no claim exercises one). -/
def parseStringBody : Nat → List Char → List Char → Option (String × List Char)
  | 0, _, _ => none
  | _, [], _ => none
  | fuel+1, c :: rest, acc =>
    if c == '"' then some (String.mk acc.reverse, rest)
    else if c == '\\' then
      match rest with
      | 'u' :: a :: b :: c2 :: d :: r =>
        if isHexDigitChar a && isHexDigitChar b && isHexDigitChar c2 && isHexDigitChar d then
          let v := hexVal a * 4096 + hexVal b * 256 + hexVal c2 * 16 + hexVal d
          if 0xD800 ≤ v && v ≤ 0xDBFF then
            match r with
            | '\\' :: 'u' :: a2 :: b2 :: c3 :: d2 :: r2 =>
              if isHexDigitChar a2 && isHexDigitChar b2 && isHexDigitChar c3 &&
                  isHexDigitChar d2 then
                let w := hexVal a2 * 4096 + hexVal b2 * 256 + hexVal c3 * 16 + hexVal d2
                if 0xDC00 ≤ w && w ≤ 0xDFFF then
                  parseStringBody fuel r2
                    (Char.ofNat (0x10000 + (v - 0xD800) * 1024 + (w - 0xDC00)) :: acc)
                else parseStringBody fuel r (Char.ofNat 0xFFFD :: acc)
              else parseStringBody fuel r (Char.ofNat 0xFFFD :: acc)
            | _ => parseStringBody fuel r (Char.ofNat 0xFFFD :: acc)
          else if 0xDC00 ≤ v && v ≤ 0xDFFF then
            parseStringBody fuel r (Char.ofNat 0xFFFD :: acc)
          else
            parseStringBody fuel r (Char.ofNat v :: acc)
        else none
      | e :: r =>
        match escapeChar e with
        | some ec => parseStringBody fuel r (ec :: acc)
        | none => none
      | [] => none
    else if c.toNat < 32 then none
    else parseStringBody fuel rest (c :: acc)

/-- Assemble the decoded number: `int` when there is neither a fraction
nor an exponent part, otherwise `float` with the exact decimal value.
Binary64 rounding of the literal, overflow to infinity (`1e400`) and
the sign of a negative zero are floating-point artefacts not modelled
here. -/
def mkPyNum (neg : Bool) (ip : Nat) (fDigits : List Char) (exp : Option Int)
    (isFloat : Bool) : PyNum :=
  if isFloat || exp.isSome then
    let man : Int := (ip * 10 ^ fDigits.length + digitsVal fDigits : Nat)
    .float (.finite (mkDecFloat (if neg then -man else man) (exp.getD 0 - fDigits.length)))
  else
    .int (if neg then -(ip : Int) else (ip : Int))

/-- Parse the exponent part of a JSON number (after `e`/`E`). -/
def parseExp (cs : List Char) : Option (Int × List Char) :=
  let p : Bool × List Char :=
    match cs with
    | '+' :: r => (false, r)
    | '-' :: r => (true, r)
    | _ => (false, cs)
  let eDigits := p.2.takeWhile Char.isDigit
  if eDigits.isEmpty then none
  else
    some ((if p.1 then -(digitsVal eDigits : Int) else (digitsVal eDigits : Int)),
      p.2.drop eDigits.length)

/-- Parse a JSON number literal. Rejects a leading zero followed by
more digits and requires digits around the decimal point, as the
stdlib decoder does. -/
def parseNumber (cs : List Char) : Option (PyNum × List Char) :=
  let p : Bool × List Char :=
    match cs with
    | '-' :: r => (true, r)
    | _ => (false, cs)
  let ipDigits := p.2.takeWhile Char.isDigit
  let cs2 := p.2.drop ipDigits.length
  if ipDigits.isEmpty then none
  else if ipDigits.length > 1 && ipDigits.head? == some '0' then none
  else
    let f : List Char × List Char × Bool :=
      match cs2 with
      | '.' :: cs3 => (cs3.takeWhile Char.isDigit, cs3.drop (cs3.takeWhile Char.isDigit).length, true)
      | _ => ([], cs2, false)
    if f.2.2 && f.1.isEmpty then none
    else
      match f.2.1 with
      | 'e' :: r =>
        (parseExp r).map (fun q => (mkPyNum p.1 (digitsVal ipDigits) f.1 (some q.1) f.2.2, q.2))
      | 'E' :: r =>
        (parseExp r).map (fun q => (mkPyNum p.1 (digitsVal ipDigits) f.1 (some q.1) f.2.2, q.2))
      | _ => some (mkPyNum p.1 (digitsVal ipDigits) f.1 none f.2.2, f.2.1)

mutual

/-- Parse one JSON value, with fuel. Models `json.loads` grammar
(objects, arrays, strings, numbers, literals). -/
def parseVal : Nat → List Char → Option (JsonValue × List Char)
  | 0, _ => none
  | fuel+1, cs =>
    match skipWs cs with
    | [] => none
    | 'n' :: 'u' :: 'l' :: 'l' :: rest => some (.null, rest)
    | 't' :: 'r' :: 'u' :: 'e' :: rest => some (.bool true, rest)
    | 'f' :: 'a' :: 'l' :: 's' :: 'e' :: rest => some (.bool false, rest)
    | 'N' :: 'a' :: 'N' :: rest => some (.num (.float .nan), rest)
    | 'I' :: 'n' :: 'f' :: 'i' :: 'n' :: 'i' :: 't' :: 'y' :: rest =>
      some (.num (.float .inf), rest)
    | '-' :: 'I' :: 'n' :: 'f' :: 'i' :: 'n' :: 'i' :: 't' :: 'y' :: rest =>
      some (.num (.float .negInf), rest)
    | '"' :: rest =>
      match parseStringBody (rest.length + 1) rest [] with
      | some (s, r) => some (.str s, r)
      | none => none
    | '[' :: rest =>
      (match skipWs rest with
       | ']' :: r => some (.arr [], r)
       | cs2 => parseElems fuel cs2 [])
    | '\x7b' :: rest =>
      (match skipWs rest with
       | '\x7d' :: r => some (.obj [], r)
       | cs2 => parseMembers fuel cs2 [])
    | cs1 => (parseNumber cs1).map (fun q => (.num q.1, q.2))

/-- Parse the elements of a non-empty JSON array. -/
def parseElems : Nat → List Char → List JsonValue → Option (JsonValue × List Char)
  | 0, _, _ => none
  | fuel+1, cs, acc =>
    match parseVal fuel cs with
    | none => none
    | some (v, r) =>
      match skipWs r with
      | ',' :: r2 => parseElems fuel r2 (v :: acc)
      | ']' :: r2 => some (.arr (v :: acc).reverse, r2)
      | _ => none

/-- Parse the members of a non-empty JSON object. Duplicate keys are
kept in order; lookup takes the last occurrence, as a Python dict
built by the decoder would. -/
def parseMembers : Nat → List Char → List (String × JsonValue) →
    Option (JsonValue × List Char)
  | 0, _, _ => none
  | fuel+1, cs, acc =>
    match skipWs cs with
    | '"' :: rest =>
      (match parseStringBody (rest.length + 1) rest [] with
       | none => none
       | some (k, r) =>
         match skipWs r with
         | ':' :: r2 =>
           (match parseVal fuel r2 with
            | none => none
            | some (v, r3) =>
              match skipWs r3 with
              | ',' :: r4 => parseMembers fuel r4 ((k, v) :: acc)
              | '\x7d' :: r4 => some (.obj ((k, v) :: acc).reverse, r4)
              | _ => none)
         | _ => none)
    | _ => none

end

/-- Models `json.loads` on a string: parse one value and require only
whitespace after it. The default constants `NaN`, `Infinity` and
`-Infinity` are accepted, as the stdlib decoder accepts them. -/
def jsonLoads (s : String) : Option JsonValue :=
  match parseVal (s.length + 1) s.toList with
  | some (v, rest) => if (skipWs rest).isEmpty then some v else none
  | none => none

/-! ## Python `str()` of decoded values -/

/-- Lowercase hexadecimal digit character. -/
def hexDigitChar (n : Nat) : Char :=
  if n < 10 then Char.ofNat (48 + n) else Char.ofNat (87 + n)

/-- Models Python `str()` of a float value: non-finite values print as
`inf`, `-inf`, `nan`. -/
def pyFloatStr : PyFloat → String
  | .finite f => decFloatStr f
  | .inf => "inf"
  | .negInf => "-inf"
  | .nan => "nan"

/-- Escape one character inside a Python string repr quoted with `q`:
backslash, the quote and the control characters, as CPython does. -/
def pyReprEscape (q : Char) (c : Char) : String :=
  if c == '\\' then "\\\\"
  else if c == q then "\\" ++ String.singleton q
  else if c == '\n' then "\\n"
  else if c == '\r' then "\\r"
  else if c == '\t' then "\\t"
  else if c.toNat < 32 || c.toNat == 127 then
    "\\x" ++ String.mk [hexDigitChar (c.toNat / 16), hexDigitChar (c.toNat % 16)]
  else String.singleton c

/-- Models Python `repr()` of a string: single quotes, switching to
double quotes when the string holds a single quote but no double
quote, with backslash/quote/control escaping. Escaping of
non-printable characters beyond ASCII is not modelled (no claim
exercises them). -/
def pyReprStr (s : String) : String :=
  let apos := Char.ofNat 39
  let q := if s.toList.contains apos && !(s.toList.contains '"') then '"' else apos
  String.singleton q ++ String.join (s.toList.map (pyReprEscape q)) ++ String.singleton q

mutual

/-- Models Python `repr()` of a JSON-decoded value. -/
def pyRepr : JsonValue → String
  | .null => "None"
  | .bool b => if b then "True" else "False"
  | .num (.int n) => toString n
  | .num (.float x) => pyFloatStr x
  | .str s => pyReprStr s
  | .arr xs => "[" ++ pyReprList xs ++ "]"
  | .obj fs => "\x7b" ++ pyReprFields fs ++ "\x7d"

/-- Comma-separated reprs of list elements. -/
def pyReprList : List JsonValue → String
  | [] => ""
  | [x] => pyRepr x
  | x :: y :: xs => pyRepr x ++ ", " ++ pyReprList (y :: xs)

/-- Comma-separated `key: value` reprs of dict entries. -/
def pyReprFields : List (String × JsonValue) → String
  | [] => ""
  | [(k, v)] => pyReprStr k ++ ": " ++ pyRepr v
  | (k, v) :: e :: fs =>
    pyReprStr k ++ ": " ++ pyRepr v ++ ", " ++ pyReprFields (e :: fs)

end

/-- Models Python `str()` of a JSON-decoded value: identity on
strings, repr otherwise. -/
def pyStr : JsonValue → String
  | .str s => s
  | v => pyRepr v

/-! ## Payload parsing (`payload_parser.py`) -/

/-- Fields to check in JSON payloads, in order of priority
(payload_parser.py `PAYLOAD_FIELDS`). -/
def PAYLOAD_FIELDS : List String :=
  ["payload", "value", "status", "state", "data"]

/-- Fields that may contain a timestamp (payload_parser.py
`TIMESTAMP_FIELDS`). -/
def TIMESTAMP_FIELDS : List String :=
  ["timestamp", "time", "ts", "datetime", "date"]

/-- Python dict lookup on the decoded member list: the last binding of
a key wins, as in a dict built by successive insertions. -/
def pyDictLookup (fields : List (String × JsonValue)) (k : String) : Option JsonValue :=
  (fields.reverse.find? (fun p => p.1 == k)).map (fun p => p.2)

/-- Python `k in dict` on the decoded member list. -/
def pyDictContains (fields : List (String × JsonValue)) (k : String) : Bool :=
  fields.any (fun p => p.1 == k)

/-- Embeds the field loop shared by `_extract_from_json` and
`parse_timestamp`: return the value of the first listed field present
in the dict; `none` when no listed field is present. -/
def findFirstField (names : List String) (fields : List (String × JsonValue)) :
    Option JsonValue :=
  match names with
  | [] => none
  | n :: rest =>
    match pyDictLookup fields n with
    | some v => some v
    | none => findFirstField rest fields

/-- Embeds `payload_parser._extract_from_json`. Python returns `None`
both for decode failure / no known field and for a field holding JSON
null; the embedding returns `.null` in all those cases, exactly as the
Python object identity conflates them. -/
def extract_from_json (raw_payload : String) : JsonValue :=
  match jsonLoads raw_payload with
  | none => .null
  | some (.obj fields) =>
    (match findFirstField PAYLOAD_FIELDS fields with
     | some v => v
     | none => .null)
  | some v => v

/-- Embeds `payload_parser._normalize_value`: booleans to
`true`/`false`, integer-valued floats without a decimal point, other
numbers in their natural form, everything else via `str().lower().strip()`. -/
def normalize_value (value : JsonValue) : String :=
  match value with
  | .bool b => if b then "true" else "false"
  | .num (.int n) => toString n
  | .num (.float (.finite f)) =>
    if f.isInteger then toString f.trunc else decFloatStr f
  | .num (.float x) => pyFloatStr x
  | v => pyStrip (pyLower (pyStr v))

/-- Embeds `payload_parser.parse_payload`: empty payload to empty
string; strip; JSON extraction when it yields a value (`.null` models
Python `None`, meaning no value); otherwise the lowercased stripped
text. -/
def parse_payload (raw_payload : String) : String :=
  if raw_payload = "" then ""
  else
    match extract_from_json (pyStrip raw_payload) with
    | .null => pyLower (pyStrip raw_payload)
    | v => normalize_value v

/-! ## Datetime model and timestamp extraction (`payload_parser.py`) -/

/-- Python `datetime` value (year 1-9999, microsecond resolution). -/
structure PyDateTime where
  year : Nat
  month : Nat
  day : Nat
  hour : Nat
  minute : Nat
  second : Nat
  usec : Nat
deriving DecidableEq, Repr

/-- Gregorian leap-year rule. -/
def isLeapYear (y : Nat) : Bool :=
  y % 4 == 0 && (y % 100 != 0 || y % 400 == 0)

/-- Length of a month. -/
def daysInMonth (y m : Nat) : Nat :=
  if m == 2 then (if isLeapYear y then 29 else 28)
  else if m == 4 || m == 6 || m == 9 || m == 11 then 30
  else 31

/-- Range validity enforced by the `datetime` constructor. -/
def validDT (t : PyDateTime) : Bool :=
  1 ≤ t.year && t.year ≤ 9999 && 1 ≤ t.month && t.month ≤ 12 &&
  1 ≤ t.day && t.day ≤ daysInMonth t.year t.month &&
  t.hour ≤ 23 && t.minute ≤ 59 && t.second ≤ 59 && t.usec ≤ 999999

/-- Python exceptions relevant to timestamp parsing. The code's
`except (ValueError, OSError)` catches the first two; `OverflowError`
is not in that clause. -/
inductive PyExc where
  | valueError
  | osError
  | overflowError
deriving DecidableEq, Repr

/-- Civil date from days since the Unix epoch (proleptic Gregorian). -/
def civilFromDays (z0 : Int) : Int × Nat × Nat :=
  let z := z0 + 719468
  let era := (if 0 ≤ z then z else z - 146096) / 146097
  let doe := (z - era * 146097).toNat
  let yoe := (doe - doe / 1460 + doe / 36524 - doe / 146096) / 365
  let y := (yoe : Int) + era * 400
  let doy := doe - (365 * yoe + yoe / 4 - yoe / 100)
  let mp := (5 * doy + 2) / 153
  let d := doy - (153 * mp + 2) / 5 + 1
  let m := if mp < 10 then mp + 3 else mp - 9
  (if m ≤ 2 then y + 1 else y, m, d)

/-- Datetime from epoch seconds (clock assumed at UTC; the source's
naive-local-time ambiguity is noted in the spec). -/
def dtFromEpoch (x : Int) : PyDateTime :=
  let days := x.fdiv 86400
  let secs := (x - days * 86400).toNat
  let c := civilFromDays days
  { year := c.1.toNat, month := c.2.1, day := c.2.2,
    hour := secs / 3600, minute := secs % 3600 / 60, second := secs % 60, usec := 0 }

/-- Models `datetime.fromtimestamp` on a clock at UTC: values outside
the platform `time_t` range (64-bit) raise `OverflowError`; values
whose year falls outside 1-9999 raise `ValueError` (the platform may
raise `OSError` for some of these; both are caught identically by the
caller, so they are modelled as `ValueError`). -/
def fromtimestampModel (sec : Int) (usec : Nat) : Except PyExc PyDateTime :=
  if sec < -(2 ^ 63) || 2 ^ 63 ≤ sec then .error .overflowError
  else if sec < -62135596800 || 253402300799 < sec then .error .valueError
  else .ok { dtFromEpoch sec with usec := usec }

/-- Epoch seconds (floor) and microseconds of a finite decoded float.
Python rounds float sub-seconds half-even; flooring is used here, and
no claim depends on sub-second rounding. -/
def numToEpoch (f : DecFloat) : Int × Nat :=
  if 0 ≤ f.exp then (f.man * 10 ^ f.exp.toNat, 0)
  else
    let d : Int := 10 ^ (-f.exp).toNat
    let s := f.man.fdiv d
    (s, ((f.man - s * d) * 1000000 / d).toNat)

/-! ### strptime model

Directive parsers model CPython `_strptime.TimeRE` regex fragments
(`%Y` exactly four digits; two-digit fields prefer the zero-padded
two-digit alternative and fall back to one digit; `%f` takes one to
six digits). Alternation is deterministic here; on the zero-padded
serializations considered no regex backtracking would occur. -/

/-- Digit character for a value 0-9. -/
def digitChar (n : Nat) : Char :=
  Char.ofNat (48 + n)

/-- Parse `%Y`: exactly four digits. -/
def parseY : List Char → Option (Nat × List Char)
  | a :: b :: c :: d :: rest =>
    if a.isDigit && b.isDigit && c.isDigit && d.isDigit then
      some (digitsVal [a, b, c, d], rest)
    else none
  | _ => none

/-- Parse a two-digit field: a two-digit value within `[lo, hi]`, or a
single digit at least `lo`. -/
def parseNum2 (lo hi : Nat) : List Char → Option (Nat × List Char)
  | a :: b :: rest =>
    if a.isDigit then
      if b.isDigit then
        let v := (a.toNat - 48) * 10 + (b.toNat - 48)
        if lo ≤ v && v ≤ hi then some (v, rest)
        else if lo ≤ a.toNat - 48 then some (a.toNat - 48, b :: rest)
        else none
      else if lo ≤ a.toNat - 48 then some (a.toNat - 48, b :: rest)
      else none
    else none
  | [a] =>
    if a.isDigit && lo ≤ a.toNat - 48 then some (a.toNat - 48, [])
    else none
  | [] => none

/-- Parse `%f`: one to six digits, value right-padded to microseconds. -/
def parseF (cs : List Char) : Option (Nat × List Char) :=
  let ds := (cs.takeWhile Char.isDigit).take 6
  if ds.isEmpty then none
  else some (digitsVal ds * 10 ^ (6 - ds.length), cs.drop ds.length)

/-- Item of a strptime/strftime format string. -/
inductive FmtItem where
  | lit (c : Char)
  | dirY
  | dirm
  | dird
  | dirH
  | dirM
  | dirS
  | dirf
deriving DecidableEq, Repr

/-- Partially filled time record during strptime. -/
structure TmRaw where
  year : Nat
  month : Nat
  day : Nat
  hour : Nat
  minute : Nat
  second : Nat
  usec : Nat
deriving DecidableEq, Repr

/-- strptime defaults: 1900-01-01 00:00:00. -/
def defaultTm : TmRaw :=
  ⟨1900, 1, 1, 0, 0, 0, 0⟩

/-- Run a format over the input; the whole input must be consumed.
`%S` admits 60-61 as the regex does; the datetime constructor then
rejects them. -/
def runFmt : List FmtItem → List Char → TmRaw → Option TmRaw
  | [], [], tm => some tm
  | [], _ :: _, _ => none
  | .lit _ :: _, [], _ => none
  | .lit c :: rest, c2 :: cs2, tm => if c2 == c then runFmt rest cs2 tm else none
  | .dirY :: rest, cs, tm =>
    (parseY cs).bind (fun p => runFmt rest p.2 { tm with year := p.1 })
  | .dirm :: rest, cs, tm =>
    (parseNum2 1 12 cs).bind (fun p => runFmt rest p.2 { tm with month := p.1 })
  | .dird :: rest, cs, tm =>
    (parseNum2 1 31 cs).bind (fun p => runFmt rest p.2 { tm with day := p.1 })
  | .dirH :: rest, cs, tm =>
    (parseNum2 0 23 cs).bind (fun p => runFmt rest p.2 { tm with hour := p.1 })
  | .dirM :: rest, cs, tm =>
    (parseNum2 0 59 cs).bind (fun p => runFmt rest p.2 { tm with minute := p.1 })
  | .dirS :: rest, cs, tm =>
    (parseNum2 0 61 cs).bind (fun p => runFmt rest p.2 { tm with second := p.1 })
  | .dirf :: rest, cs, tm =>
    (parseF cs).bind (fun p => runFmt rest p.2 { tm with usec := p.1 })

/-- Datetime construction at the end of strptime: range-check and
build. -/
def mkDatetime (tm : TmRaw) : Option PyDateTime :=
  let t : PyDateTime := ⟨tm.year, tm.month, tm.day, tm.hour, tm.minute, tm.second, tm.usec⟩
  if validDT t then some t else none

/-- Models `datetime.strptime` for the formats used by the source. -/
def strptimeModel (fmt : List FmtItem) (s : String) : Option PyDateTime :=
  (runFmt fmt s.toList defaultTm).bind mkDatetime

/-- Format `%Y-%m-%d %H:%M:%S` (payload_parser.py TIMESTAMP_FORMATS). -/
def fmt1 : List FmtItem :=
  [.dirY, .lit '-', .dirm, .lit '-', .dird, .lit ' ', .dirH, .lit ':', .dirM, .lit ':', .dirS]

/-- Format `%Y-%m-%dT%H:%M:%S`. -/
def fmt2 : List FmtItem :=
  [.dirY, .lit '-', .dirm, .lit '-', .dird, .lit 'T', .dirH, .lit ':', .dirM, .lit ':', .dirS]

/-- Format `%Y-%m-%dT%H:%M:%SZ`. -/
def fmt3 : List FmtItem :=
  fmt2 ++ [.lit 'Z']

/-- Format `%Y-%m-%dT%H:%M:%S.%f`. -/
def fmt4 : List FmtItem :=
  fmt2 ++ [.lit '.', .dirf]

/-- Format `%Y-%m-%dT%H:%M:%S.%fZ`. -/
def fmt5 : List FmtItem :=
  fmt2 ++ [.lit '.', .dirf, .lit 'Z']

/-- Format `%Y/%m/%d %H:%M:%S`. -/
def fmt6 : List FmtItem :=
  [.dirY, .lit '/', .dirm, .lit '/', .dird, .lit ' ', .dirH, .lit ':', .dirM, .lit ':', .dirS]

/-- Format `%d-%m-%Y %H:%M:%S`. -/
def fmt7 : List FmtItem :=
  [.dird, .lit '-', .dirm, .lit '-', .dirY, .lit ' ', .dirH, .lit ':', .dirM, .lit ':', .dirS]

/-- Supported timestamp formats, in trial order (payload_parser.py
`TIMESTAMP_FORMATS`). -/
def TIMESTAMP_FORMATS : List (List FmtItem) :=
  [fmt1, fmt2, fmt3, fmt4, fmt5, fmt6, fmt7]

/-! ### strftime model (spec-side serializer for the round-trip
property)

The repository contains no timestamp serializer; the spec's round-trip
property supplies one. Modelled from the spec: serializing a timestamp
in a given format means strftime with zero-padded numeric directives
(the reading of `YYYY-MM-DD HH:MM:SS`). -/

/-- Two zero-padded digits of a value below 100. -/
def pad2Chars (n : Nat) : List Char :=
  [digitChar (n / 10), digitChar (n % 10)]

/-- Four zero-padded digits of a value below 10000. -/
def pad4Chars (n : Nat) : List Char :=
  [digitChar (n / 1000), digitChar (n / 100 % 10), digitChar (n / 10 % 10), digitChar (n % 10)]

/-- Six zero-padded digits of a value below 1000000. -/
def pad6Chars (n : Nat) : List Char :=
  [digitChar (n / 100000), digitChar (n / 10000 % 10), digitChar (n / 1000 % 10),
   digitChar (n / 100 % 10), digitChar (n / 10 % 10), digitChar (n % 10)]

/-- Serialization of one format item. -/
def serItem (t : PyDateTime) : FmtItem → List Char
  | .lit c => [c]
  | .dirY => pad4Chars t.year
  | .dirm => pad2Chars t.month
  | .dird => pad2Chars t.day
  | .dirH => pad2Chars t.hour
  | .dirM => pad2Chars t.minute
  | .dirS => pad2Chars t.second
  | .dirf => pad6Chars t.usec

/-- Serialization of a whole format. -/
def serFmtChars : List FmtItem → PyDateTime → List Char
  | [], _ => []
  | it :: rest, t => serItem t it ++ serFmtChars rest t

/-- Modelled from the spec: `strftime(fmt)` of a timestamp, as a
string. -/
def strftimeModel (fmt : List FmtItem) (t : PyDateTime) : String :=
  String.mk (serFmtChars fmt t)

/-- Field assignment performed by one strptime directive. -/
def applyItem (t : PyDateTime) (tm : TmRaw) : FmtItem → TmRaw
  | .lit _ => tm
  | .dirY => { tm with year := t.year }
  | .dirm => { tm with month := t.month }
  | .dird => { tm with day := t.day }
  | .dirH => { tm with hour := t.hour }
  | .dirM => { tm with minute := t.minute }
  | .dirS => { tm with second := t.second }
  | .dirf => { tm with usec := t.usec }

/-- Field assignments of a format, folded left to right. -/
def applyFmt : List FmtItem → PyDateTime → TmRaw → TmRaw
  | [], _, tm => tm
  | it :: rest, t, tm => applyFmt rest t (applyItem t tm it)

/-- A `%f` directive must be followed by a non-digit literal, or be
last with the trailing input (whose head is `after`) not starting with
a digit: then the greedy fraction parse stops exactly at the end of
its own serialization. -/
def dirfOk : List FmtItem → Option Char → Bool
  | [], _ => true
  | .lit _ :: rest, after => dirfOk rest after
  | .dirY :: rest, after => dirfOk rest after
  | .dirm :: rest, after => dirfOk rest after
  | .dird :: rest, after => dirfOk rest after
  | .dirH :: rest, after => dirfOk rest after
  | .dirM :: rest, after => dirfOk rest after
  | .dirS :: rest, after => dirfOk rest after
  | .dirf :: rest, after =>
    (match rest with
     | [] =>
       (match after with
        | none => true
        | some c => !c.isDigit)
     | .lit c :: _ => !c.isDigit
     | _ => false) && dirfOk rest after

/-- Embeds the strptime loop of `_parse_timestamp_value`: first format
that parses wins; every `ValueError` is caught and the next format
tried. -/
def firstParse : List (List FmtItem) → String → Option PyDateTime
  | [], _ => none
  | f :: rest, s =>
    match strptimeModel f s with
    | some dt => some dt
    | none => firstParse rest s

/-- Embeds the numeric branch's `except (ValueError, OSError)` clause:
those two outcomes become `None`, anything else propagates. -/
def catchTsRange : Except PyExc PyDateTime → Except PyExc (Option PyDateTime)
  | .ok dt => .ok (some dt)
  | .error e => if e = .valueError || e = .osError then .ok none else .error e

/-- Embeds `payload_parser._parse_timestamp_value` as an `Except`:
`None` for a null value; the numeric branch calls `fromtimestamp`
catching only `ValueError` and `OSError`; any other value is
stringified and tried against the formats (which only ever raises
caught `ValueError`s). A Python bool is an `int` instance and so takes
the numeric branch; `fromtimestamp` raises `OverflowError` on an
infinity and `ValueError` on a NaN. -/
def parse_timestamp_value (ts_value : JsonValue) : Except PyExc (Option PyDateTime) :=
  match ts_value with
  | .null => .ok none
  | .bool b => catchTsRange (fromtimestampModel (if b then 1 else 0) 0)
  | .num (.int n) => catchTsRange (fromtimestampModel n 0)
  | .num (.float (.finite f)) =>
    catchTsRange (fromtimestampModel (numToEpoch f).1 (numToEpoch f).2)
  | .num (.float .inf) => catchTsRange (.error .overflowError)
  | .num (.float .negInf) => catchTsRange (.error .overflowError)
  | .num (.float .nan) => catchTsRange (.error .valueError)
  | v => .ok (firstParse TIMESTAMP_FORMATS (pyStrip (pyStr v)))

/-- Embeds `payload_parser.parse_timestamp` as an `Except`: empty or
non-JSON or non-object payloads and a missing/null timestamp field
yield `None`; otherwise the field value is parsed, and any exception
other than the caught `JSONDecodeError`/`TypeError` propagates. -/
def parse_timestamp (raw_payload : String) : Except PyExc (Option PyDateTime) :=
  if raw_payload = "" then .ok none
  else
    match jsonLoads (pyStrip raw_payload) with
    | none => .ok none
    | some (.obj fields) =>
      (match findFirstField TIMESTAMP_FIELDS fields with
       | none => .ok none
       | some tv => parse_timestamp_value tv)
    | some _ => .ok none

/-! ## Freshness evaluator (`payload_parser.is_message_recent`)

Instants are modelled as integer microseconds, the exact resolution of
Python `datetime` arithmetic; `datetime.now()` becomes the explicit
argument `nowUsec`. -/

/-- Default max age for messages, in seconds (payload_parser.py
`DEFAULT_MAX_AGE_SECONDS`). -/
def DEFAULT_MAX_AGE_SECONDS : Int := 60

/-- Embeds `payload_parser.is_message_recent`: a missing timestamp is
treated as recent; otherwise the message is recent iff
`now - timestamp ≤ timedelta(seconds=max_age_seconds)`, compared in
microseconds. -/
def is_message_recent (timestamp : Option Int) (nowUsec : Int)
    (max_age_seconds : Int) : Bool :=
  match timestamp with
  | none => true
  | some ts => nowUsec - ts ≤ max_age_seconds * 1000000

/-- Embeds `payload_parser.get_message_age_seconds` (diagnostics
companion), in microseconds. -/
def get_message_age (timestamp : Option Int) (nowUsec : Int) : Option Int :=
  match timestamp with
  | none => none
  | some ts => some (nowUsec - ts)

/-! ## Notification data payload (`fcm_service.send_to_topic`) -/

/-- Python dict assignment `d[k] = v` on an association list with
unique keys: replace in place or append. -/
def pyDictSet : List (String × String) → String → String → List (String × String)
  | [], k, v => [(k, v)]
  | p :: rest, k, v => if p.1 == k then (k, v) :: rest else p :: pyDictSet rest k v

/-- Python `d.update(extra)`: assign every entry of `extra` in order. -/
def pyDictUpdate (d : List (String × String)) (extra : List (String × String)) :
    List (String × String) :=
  extra.foldl (fun acc p => pyDictSet acc p.1 p.2) d

/-- Lookup in an association list with unique keys (first match). -/
def pyStrDictLookup : List (String × String) → String → Option String
  | [], _ => none
  | p :: rest, k => if p.1 == k then some p.2 else pyStrDictLookup rest k

/-- Value of key `k` in the dict built from the pair list `extra`
(later duplicates overwrite earlier ones, as in a Python dict). -/
def dictViewLookup : List (String × String) → String → Option String
  | [], _ => none
  | p :: rest, k =>
    match dictViewLookup rest k with
    | some v => some v
    | none => if p.1 == k then some p.2 else none

/-- Embeds the `payload_data` construction of
`fcm_service.send_to_topic` (lines 60-67): stamp `type` and
`timestamp` (current epoch seconds as string), add `device_id` when
the argument is truthy, then merge the caller's `data` on top. -/
def build_payload_data (notification_type : String) (nowEpoch : Int)
    (device_id : Option String) (data : Option (List (String × String))) :
    List (String × String) :=
  let base : List (String × String) :=
    [("type", notification_type), ("timestamp", toString nowEpoch)]
  let withDev :=
    match device_id with
    | some d => if d = "" then base else pyDictSet base "device_id" d
    | none => base
  match data with
  | some ds => if ds.isEmpty then withDev else pyDictUpdate withDev ds
  | none => withDev

theorem is_truthy_cases (v : String) (h : is_truthy v = true) :
    v = "1" ∨ v = "on" ∨ v = "true" ∨ v = "online" ∨ v = "connected" ∨
    v = "started" ∨ v = "yes" ∨ v = "active" := by
  simp only [is_truthy, Bool.or_eq_true, beq_iff_eq] at h
  tauto

theorem truthy_not_falsy (v : String) (h : is_truthy v = true) : is_falsy v = false := by
  rcases is_truthy_cases v h with h | h | h | h | h | h | h | h <;> subst h <;> decide

/-- C1: on a ConnectivityStatus topic, a Negative value always emits
DeviceOffline regardless of freshness; an Affirmative value emits
DeviceOnline exactly when fresh; an Ambiguous value emits nothing. -/
theorem connectivity_routing (value : String) (fresh : Bool) :
    route .connectivityStatus value fresh =
      (match classify value, fresh with
       | .negative, _ => some .deviceOffline
       | .affirmative, true => some .deviceOnline
       | .affirmative, false => none
       | .ambiguous, _ => none) := by
  unfold route classify
  cases hT : is_truthy value <;> cases hF : is_falsy value <;> cases fresh <;>
    simp_all [truthy_not_falsy]

/-- C2: on a PumpStatus topic, route emits PumpStart exactly for a fresh
Affirmative value, PumpStop exactly for a fresh Negative value, and
nothing when stale or Ambiguous; on an Unrecognized topic it never
emits anything. -/
theorem pump_and_unrecognized_routing (value : String) (fresh : Bool) :
    route .pumpStatus value fresh =
      (match classify value, fresh with
       | .affirmative, true => some .pumpStart
       | .negative, true => some .pumpStop
       | _, _ => none) ∧
    route .unrecognized value fresh = none := by
  refine ⟨?_, rfl⟩
  unfold route classify
  cases hT : is_truthy value <;> cases hF : is_falsy value <;> cases fresh <;>
    simp_all [truthy_not_falsy]

/-- C4: for a payload decoding to a JSON object, extraction takes the
first present field among payload, value, status, state, data, in that
fixed order; in particular a present `payload` field always wins. -/
theorem payload_field_priority (raw : String) (fields : List (String × JsonValue))
    (h : jsonLoads raw = some (.obj fields)) :
    extract_from_json raw =
      ((pyDictLookup fields "payload" <|> pyDictLookup fields "value" <|>
        pyDictLookup fields "status" <|> pyDictLookup fields "state" <|>
        pyDictLookup fields "data").getD .null) := by
  simp only [extract_from_json, h, PAYLOAD_FIELDS, findFirstField]
  cases pyDictLookup fields "payload" <;>
    cases pyDictLookup fields "value" <;>
    cases pyDictLookup fields "status" <;>
    cases pyDictLookup fields "state" <;>
    cases pyDictLookup fields "data" <;> rfl

/-- Closed instance of `payload_field_priority`: the `payload` field
wins although `status` comes first in the text and `value` is also
present. -/
theorem payload_field_priority_witness :
    extract_from_json "\x7b\"status\": 0, \"payload\": \"ON\", \"value\": null\x7d" =
      JsonValue.str "ON" := by
  rw [payload_field_priority "\x7b\"status\": 0, \"payload\": \"ON\", \"value\": null\x7d"
    [("status", .num (.int 0)), ("payload", .str "ON"), ("value", .null)] rfl]
  rfl

/-- C5: a payload that does not decode as JSON is normalized to its
stripped text lowercased, and the empty payload maps to the empty
string. -/
theorem plain_text_normalization (p : String) (h : jsonLoads (pyStrip p) = none) :
    parse_payload p = pyLower (pyStrip p) ∧ parse_payload "" = "" := by
  refine ⟨?_, rfl⟩
  unfold parse_payload
  by_cases hp : p = ""
  · subst hp; rfl
  · rw [if_neg hp]
    simp only [extract_from_json, h]

/-- Closed instance of `plain_text_normalization` on a plain-text
payload. -/
theorem plain_text_normalization_witness :
    parse_payload "  Hello World  " = pyLower (pyStrip "  Hello World  ") ∧
      parse_payload "" = "" :=
  plain_text_normalization "  Hello World  " rfl

/-- C8: when the first present candidate field of a JSON-object payload
holds JSON null, normalization does not render the null; it falls back
to plain-string mode on the whole stripped payload text. -/
theorem null_valued_field_plain_fallback (p : String)
    (fields : List (String × JsonValue))
    (h1 : jsonLoads (pyStrip p) = some (.obj fields))
    (h2 : findFirstField PAYLOAD_FIELDS fields = some .null) :
    parse_payload p = pyLower (pyStrip p) := by
  have hp : p ≠ "" := by
    intro hp
    rw [hp] at h1
    exact Option.noConfusion h1
  unfold parse_payload
  rw [if_neg hp]
  simp only [extract_from_json, h1, h2]

/-- Closed instance of `null_valued_field_plain_fallback`: a null
`payload` field yields the whole lowercased JSON text even though a
later candidate field has a value. -/
theorem null_valued_field_plain_fallback_witness :
    parse_payload "\x7b\"payload\": null, \"value\": 1\x7d" =
      pyLower (pyStrip "\x7b\"payload\": null, \"value\": 1\x7d") :=
  null_valued_field_plain_fallback "\x7b\"payload\": null, \"value\": 1\x7d"
    [("payload", JsonValue.null), ("value", .num (.int 1))] rfl rfl

/-- C3 (refuted — code bug): a numeric timestamp beyond the platform
`time_t` range makes `datetime.fromtimestamp` raise `OverflowError`,
which the code's `except (ValueError, OSError)` clause does not catch,
so timestamp extraction raises instead of returning absence. -/
theorem timestamp_overflow_escapes :
    parse_timestamp "\x7b\"timestamp\": 100000000000000000000\x7d" =
      Except.error PyExc.overflowError := by
  rfl

/-- C6: a missing timestamp is always fresh; a present timestamp is
fresh exactly when the elapsed time is at most the max age (inclusive
boundary); for a nonnegative threshold, a future timestamp (negative
elapsed time) is fresh. -/
theorem freshness_evaluation (ts nowUsec m : Int) :
    is_message_recent none nowUsec m = true ∧
    (is_message_recent (some ts) nowUsec m = true ↔ nowUsec - ts ≤ m * 1000000) ∧
    (0 ≤ m → nowUsec - ts < 0 → is_message_recent (some ts) nowUsec m = true) := by
  refine ⟨rfl, by simp [is_message_recent], fun hm hneg => ?_⟩
  simp only [is_message_recent, decide_eq_true_eq]
  nlinarith

/-- Closed instance of `freshness_evaluation`: a timestamp one minute
in the future is fresh under the default 60-second window. -/
theorem freshness_evaluation_witness :
    is_message_recent (some 90000000) 30000000 60 = true :=
  (freshness_evaluation 90000000 30000000 60).2.2 (by decide) (by decide)

theorem pyStrDictLookup_set_eq (d : List (String × String)) (k v : String) :
    pyStrDictLookup (pyDictSet d k v) k = some v := by
  induction d with
  | nil => simp [pyDictSet, pyStrDictLookup]
  | cons p rest ih =>
    by_cases hp : (p.1 == k) = true
    · simp [pyDictSet, hp, pyStrDictLookup]
    · have hpf : (p.1 == k) = false := by simpa using hp
      simp [pyDictSet, hpf, pyStrDictLookup, ih]

theorem pyStrDictLookup_set_ne (d : List (String × String)) (k v k' : String)
    (h : (k == k') = false) :
    pyStrDictLookup (pyDictSet d k v) k' = pyStrDictLookup d k' := by
  induction d with
  | nil => simp [pyDictSet, pyStrDictLookup, h]
  | cons p rest ih =>
    by_cases hp : (p.1 == k) = true
    · have hp1 : p.1 = k := eq_of_beq hp
      simp [pyDictSet, hp, pyStrDictLookup, hp1, h]
    · have hpf : (p.1 == k) = false := by simpa using hp
      simp only [pyDictSet, hpf, Bool.false_eq_true, if_false, pyStrDictLookup]
      split
      · rfl
      · exact ih

theorem pyStrDictLookup_update (d extra : List (String × String)) (k : String) :
    pyStrDictLookup (pyDictUpdate d extra) k =
      (dictViewLookup extra k <|> pyStrDictLookup d k) := by
  induction extra generalizing d with
  | nil => rfl
  | cons p rest ih =>
    have step : pyDictUpdate d (p :: rest) = pyDictUpdate (pyDictSet d p.1 p.2) rest := rfl
    rw [step, ih]
    cases hrest : dictViewLookup rest k with
    | some v => simp [dictViewLookup, hrest]
    | none =>
      by_cases hk : (p.1 == k) = true
      · have hk1 : p.1 = k := eq_of_beq hk
        subst hk1
        simp [dictViewLookup, hrest, pyStrDictLookup_set_eq]
      · have hkf : (p.1 == k) = false := by simpa using hk
        simp [dictViewLookup, hrest, hkf, pyStrDictLookup_set_ne d p.1 p.2 k hkf]

/-- C9: with a non-empty device id, the outgoing data map carries
`type`, `timestamp` and `device_id` stamped from the call, and the
caller's extra data is merged on top, so an extra entry under any of
those keys overwrites the stamped value. -/
theorem send_payload_data_keys (nt : String) (now : Int) (d : String)
    (extra : List (String × String)) (hd : d ≠ "") :
    pyStrDictLookup (build_payload_data nt now (some d) (some extra)) "type" =
      (dictViewLookup extra "type" <|> some nt) ∧
    pyStrDictLookup (build_payload_data nt now (some d) (some extra)) "timestamp" =
      (dictViewLookup extra "timestamp" <|> some (toString now)) ∧
    pyStrDictLookup (build_payload_data nt now (some d) (some extra)) "device_id" =
      (dictViewLookup extra "device_id" <|> some d) := by
  have hbuild : build_payload_data nt now (some d) (some extra) =
      pyDictUpdate (pyDictSet [("type", nt), ("timestamp", toString now)] "device_id" d)
        extra := by
    cases extra with
    | nil => simp [build_payload_data, hd, pyDictUpdate]
    | cons p rest => simp [build_payload_data, hd, pyDictUpdate]
  rw [hbuild]
  refine ⟨?_, ?_, ?_⟩ <;> rw [pyStrDictLookup_update] <;> rfl

/-- Closed instance of `send_payload_data_keys`: stamped keys are
present, and a caller-supplied `device_id` entry overwrites the
stamped one. -/
theorem send_payload_data_keys_witness :
    pyStrDictLookup (build_payload_data "pump_start" 1700000000 (some "dev1")
      (some [("device_id", "spoof")])) "type" = some "pump_start" ∧
    pyStrDictLookup (build_payload_data "pump_start" 1700000000 (some "dev1")
      (some [("device_id", "spoof")])) "device_id" = some "spoof" := by
  have h := send_payload_data_keys "pump_start" 1700000000 "dev1"
    [("device_id", "spoof")] (by decide)
  exact ⟨h.1, h.2.2⟩

theorem digitChar_isDigit (d : Nat) (h : d ≤ 9) : (digitChar d).isDigit = true := by
  interval_cases d <;> decide

theorem digitChar_toNat (d : Nat) (h : d ≤ 9) : (digitChar d).toNat = 48 + d := by
  interval_cases d <;> decide

theorem parseY_pad (y : Nat) (h : y ≤ 9999) (rest : List Char) :
    parseY (pad4Chars y ++ rest) = some (y, rest) := by
  have h1 : y / 1000 ≤ 9 := by omega
  have h2 : y / 100 % 10 ≤ 9 := by omega
  have h3 : y / 10 % 10 ≤ 9 := by omega
  have h4 : y % 10 ≤ 9 := by omega
  have e1 : y / 100 / 10 = y / 1000 := by rw [Nat.div_div_eq_div_mul]
  have e2 : y / 10 / 10 = y / 100 := by rw [Nat.div_div_eq_div_mul]
  simp only [pad4Chars, List.cons_append, List.nil_append, parseY,
    digitChar_isDigit _ h1, digitChar_isDigit _ h2, digitChar_isDigit _ h3,
    digitChar_isDigit _ h4, Bool.and_self, if_true, digitsVal, List.foldl,
    digitChar_toNat _ h1, digitChar_toNat _ h2, digitChar_toNat _ h3,
    digitChar_toNat _ h4, Option.some.injEq, Prod.mk.injEq, and_true]
  omega

theorem parseNum2_pad (lo hi n : Nat) (hlo : lo ≤ n) (hhi : n ≤ hi) (h99 : n ≤ 99)
    (rest : List Char) :
    parseNum2 lo hi (pad2Chars n ++ rest) = some (n, rest) := by
  have ha : n / 10 ≤ 9 := by omega
  have hb : n % 10 ≤ 9 := by omega
  have hv : (48 + n / 10 - 48) * 10 + (48 + n % 10 - 48) = n := by omega
  simp only [pad2Chars, List.cons_append, List.nil_append, parseNum2,
    digitChar_isDigit _ ha, digitChar_isDigit _ hb, if_true,
    digitChar_toNat _ ha, digitChar_toNat _ hb, hv]
  simp [hlo, hhi]

theorem parseF_pad6 (u : Nat) (hu : u ≤ 999999) :
    parseF (pad6Chars u) = some (u, []) := by
  have h1 : u / 100000 ≤ 9 := by omega
  have h2 : u / 10000 % 10 ≤ 9 := by omega
  have h3 : u / 1000 % 10 ≤ 9 := by omega
  have h4 : u / 100 % 10 ≤ 9 := by omega
  have h5 : u / 10 % 10 ≤ 9 := by omega
  have h6 : u % 10 ≤ 9 := by omega
  have e1 : u / 10 / 10 = u / 100 := by rw [Nat.div_div_eq_div_mul]
  have e2 : u / 100 / 10 = u / 1000 := by rw [Nat.div_div_eq_div_mul]
  have e3 : u / 1000 / 10 = u / 10000 := by rw [Nat.div_div_eq_div_mul]
  have e4 : u / 10000 / 10 = u / 100000 := by rw [Nat.div_div_eq_div_mul]
  simp only [pad6Chars, parseF, List.takeWhile,
    digitChar_isDigit _ h1, digitChar_isDigit _ h2, digitChar_isDigit _ h3,
    digitChar_isDigit _ h4, digitChar_isDigit _ h5, digitChar_isDigit _ h6,
    List.take, List.isEmpty, digitsVal, List.foldl, List.drop, List.length_cons,
    List.length_nil,
    digitChar_toNat _ h1, digitChar_toNat _ h2, digitChar_toNat _ h3,
    digitChar_toNat _ h4, digitChar_toNat _ h5, digitChar_toNat _ h6,
    Option.some.injEq, Prod.mk.injEq]
  norm_num
  omega

theorem parseF_pad6_cons (u : Nat) (hu : u ≤ 999999) (c : Char)
    (hc : c.isDigit = false) (cs : List Char) :
    parseF (pad6Chars u ++ c :: cs) = some (u, c :: cs) := by
  have h1 : u / 100000 ≤ 9 := by omega
  have h2 : u / 10000 % 10 ≤ 9 := by omega
  have h3 : u / 1000 % 10 ≤ 9 := by omega
  have h4 : u / 100 % 10 ≤ 9 := by omega
  have h5 : u / 10 % 10 ≤ 9 := by omega
  have h6 : u % 10 ≤ 9 := by omega
  have e1 : u / 10 / 10 = u / 100 := by rw [Nat.div_div_eq_div_mul]
  have e2 : u / 100 / 10 = u / 1000 := by rw [Nat.div_div_eq_div_mul]
  have e3 : u / 1000 / 10 = u / 10000 := by rw [Nat.div_div_eq_div_mul]
  have e4 : u / 10000 / 10 = u / 100000 := by rw [Nat.div_div_eq_div_mul]
  simp only [pad6Chars, parseF, List.cons_append, List.nil_append, List.takeWhile,
    digitChar_isDigit _ h1, digitChar_isDigit _ h2, digitChar_isDigit _ h3,
    digitChar_isDigit _ h4, digitChar_isDigit _ h5, digitChar_isDigit _ h6, hc,
    List.take, List.isEmpty, digitsVal, List.foldl, List.drop, List.length_cons,
    List.length_nil,
    digitChar_toNat _ h1, digitChar_toNat _ h2, digitChar_toNat _ h3,
    digitChar_toNat _ h4, digitChar_toNat _ h5, digitChar_toNat _ h6,
    Option.some.injEq, Prod.mk.injEq]
  norm_num
  omega

theorem daysInMonth_le (y m : Nat) : daysInMonth y m ≤ 31 := by
  unfold daysInMonth
  split_ifs <;> omega

theorem validDT_bounds (t : PyDateTime) (hv : validDT t = true) :
    t.year ≤ 9999 ∧ 1 ≤ t.month ∧ t.month ≤ 12 ∧ 1 ≤ t.day ∧ t.day ≤ 31 ∧
    t.hour ≤ 23 ∧ t.minute ≤ 59 ∧ t.second ≤ 59 ∧ t.usec ≤ 999999 := by
  have hdm := daysInMonth_le t.year t.month
  simp only [validDT, Bool.and_eq_true, decide_eq_true_eq] at hv
  refine ⟨?_, ?_, ?_, ?_, ?_, ?_, ?_, ?_, ?_⟩ <;> omega

theorem serFmtChars_append (a b : List FmtItem) (t : PyDateTime) :
    serFmtChars (a ++ b) t = serFmtChars a t ++ serFmtChars b t := by
  induction a with
  | nil => rfl
  | cons it rest ih => simp [serFmtChars, ih]

theorem runFmt_ser_append (t : PyDateTime) (hv : validDT t = true)
    (p : List FmtItem) :
    ∀ (q : List FmtItem) (cs : List Char) (tm : TmRaw),
      dirfOk p cs.head? = true →
      runFmt (p ++ q) (serFmtChars p t ++ cs) tm = runFmt q cs (applyFmt p t tm) := by
  obtain ⟨hy, hm1, hm2, hd1, hd2, hH, hM, hS, hu⟩ := validDT_bounds t hv
  induction p with
  | nil => intro q cs tm _; rfl
  | cons it rest ih =>
    intro q cs tm hf
    cases it with
    | lit c =>
      have hf' : dirfOk rest cs.head? = true := by simpa [dirfOk] using hf
      show runFmt (.lit c :: (rest ++ q)) (c :: (serFmtChars rest t ++ cs)) tm = _
      simp only [runFmt, beq_self_eq_true, if_true]
      exact ih q cs tm hf'
    | dirY =>
      have hf' : dirfOk rest cs.head? = true := by simpa [dirfOk] using hf
      show runFmt (.dirY :: (rest ++ q))
        ((pad4Chars t.year ++ serFmtChars rest t) ++ cs) tm = _
      rw [List.append_assoc]
      simp only [runFmt, parseY_pad t.year hy, Option.some_bind]
      exact ih q cs _ hf'
    | dirm =>
      have hf' : dirfOk rest cs.head? = true := by simpa [dirfOk] using hf
      show runFmt (.dirm :: (rest ++ q))
        ((pad2Chars t.month ++ serFmtChars rest t) ++ cs) tm = _
      rw [List.append_assoc]
      simp only [runFmt, parseNum2_pad 1 12 t.month hm1 hm2 (by omega) _,
        Option.some_bind]
      exact ih q cs _ hf'
    | dird =>
      have hf' : dirfOk rest cs.head? = true := by simpa [dirfOk] using hf
      show runFmt (.dird :: (rest ++ q))
        ((pad2Chars t.day ++ serFmtChars rest t) ++ cs) tm = _
      rw [List.append_assoc]
      simp only [runFmt, parseNum2_pad 1 31 t.day hd1 hd2 (by omega) _,
        Option.some_bind]
      exact ih q cs _ hf'
    | dirH =>
      have hf' : dirfOk rest cs.head? = true := by simpa [dirfOk] using hf
      show runFmt (.dirH :: (rest ++ q))
        ((pad2Chars t.hour ++ serFmtChars rest t) ++ cs) tm = _
      rw [List.append_assoc]
      simp only [runFmt, parseNum2_pad 0 23 t.hour (Nat.zero_le _) hH (by omega) _,
        Option.some_bind]
      exact ih q cs _ hf'
    | dirM =>
      have hf' : dirfOk rest cs.head? = true := by simpa [dirfOk] using hf
      show runFmt (.dirM :: (rest ++ q))
        ((pad2Chars t.minute ++ serFmtChars rest t) ++ cs) tm = _
      rw [List.append_assoc]
      simp only [runFmt, parseNum2_pad 0 59 t.minute (Nat.zero_le _) hM (by omega) _,
        Option.some_bind]
      exact ih q cs _ hf'
    | dirS =>
      have hf' : dirfOk rest cs.head? = true := by simpa [dirfOk] using hf
      show runFmt (.dirS :: (rest ++ q))
        ((pad2Chars t.second ++ serFmtChars rest t) ++ cs) tm = _
      rw [List.append_assoc]
      simp only [runFmt, parseNum2_pad 0 61 t.second (Nat.zero_le _) (by omega) (by omega) _,
        Option.some_bind]
      exact ih q cs _ hf'
    | dirf =>
      cases rest with
      | nil =>
        cases cs with
        | nil =>
          show runFmt (.dirf :: q) ((pad6Chars t.usec ++ []) ++ []) tm =
            runFmt q [] (applyFmt [.dirf] t tm)
          rw [List.append_nil, List.append_nil]
          simp only [runFmt, parseF_pad6 t.usec hu, Option.some_bind]
          rfl
        | cons c cs2 =>
          have hc : c.isDigit = false := by
            have hb : (!c.isDigit && true) = true := hf
            simpa using hb
          show runFmt (.dirf :: q) (pad6Chars t.usec ++ (c :: cs2)) tm = _
          simp only [runFmt, parseF_pad6_cons t.usec hu c hc cs2, Option.some_bind]
          rfl
      | cons it2 rest2 =>
        cases it2 with
        | lit c2 =>
          have hf2 : (!c2.isDigit && dirfOk (.lit c2 :: rest2) cs.head?) = true := hf
          rw [Bool.and_eq_true] at hf2
          obtain ⟨hcb, hf'⟩ := hf2
          have hc : c2.isDigit = false := by simpa using hcb
          have hstep : runFmt ((.dirf :: .lit c2 :: rest2) ++ q)
              (serFmtChars (.dirf :: .lit c2 :: rest2) t ++ cs) tm =
              runFmt ((.lit c2 :: rest2) ++ q)
                (serFmtChars (.lit c2 :: rest2) t ++ cs) { tm with usec := t.usec } := by
            show (parseF (pad6Chars t.usec ++ (c2 :: (serFmtChars rest2 t ++ cs)))).bind
              (fun p => runFmt ((.lit c2 :: rest2) ++ q) p.2 { tm with usec := p.1 }) = _
            rw [parseF_pad6_cons t.usec hu c2 hc (serFmtChars rest2 t ++ cs)]
            rfl
          exact hstep.trans (ih q cs _ hf')
        | dirY => exact Bool.noConfusion (show false = true from hf)
        | dirm => exact Bool.noConfusion (show false = true from hf)
        | dird => exact Bool.noConfusion (show false = true from hf)
        | dirH => exact Bool.noConfusion (show false = true from hf)
        | dirM => exact Bool.noConfusion (show false = true from hf)
        | dirS => exact Bool.noConfusion (show false = true from hf)
        | dirf => exact Bool.noConfusion (show false = true from hf)

theorem strptime_ser_self (t : PyDateTime) (hv : validDT t = true)
    (p : List FmtItem) (hf : dirfOk p none = true) :
    runFmt p (serFmtChars p t) defaultTm = some (applyFmt p t defaultTm) := by
  have h := runFmt_ser_append t hv p [] [] defaultTm hf
  rw [List.append_nil, List.append_nil] at h
  exact h

theorem mkDatetime_fields (t : PyDateTime) (hv : validDT t = true)
    (u : Nat) (hu : u ≤ 999999) :
    mkDatetime ⟨t.year, t.month, t.day, t.hour, t.minute, t.second, u⟩ =
      some ⟨t.year, t.month, t.day, t.hour, t.minute, t.second, u⟩ := by
  unfold mkDatetime
  have hv2 : validDT ⟨t.year, t.month, t.day, t.hour, t.minute, t.second, u⟩ = true := by
    simp only [validDT, Bool.and_eq_true, decide_eq_true_eq] at hv ⊢
    tauto
  simp [hv2]

theorem runFmt_ser_leftover (t : PyDateTime) (hv : validDT t = true)
    (p : List FmtItem) (c : Char) (cs2 : List Char) (tm : TmRaw)
    (hf : dirfOk p (some c) = true) :
    runFmt p (serFmtChars p t ++ c :: cs2) tm = none := by
  have h := runFmt_ser_append t hv p [] (c :: cs2) tm hf
  rw [List.append_nil] at h
  exact h

theorem runFmt_dirY_two_digits (a : Nat) (r : List FmtItem) (cs : List Char)
    (tm : TmRaw) :
    runFmt (.dirY :: r) (pad2Chars a ++ '-' :: cs) tm = none := by
  have hdash : ('-').isDigit = false := by decide
  cases cs with
  | nil => simp [pad2Chars, runFmt, parseY]
  | cons x cs2 => simp [pad2Chars, runFmt, parseY, hdash]

theorem runFmt_dash_fmt_on_slash (t : PyDateTime) (hv : validDT t = true)
    (r : List FmtItem) (cs : List Char) (tm : TmRaw) :
    runFmt (.dirY :: .lit '-' :: r) (pad4Chars t.year ++ '/' :: cs) tm = none := by
  have h := runFmt_ser_append t hv [.dirY] (.lit '-' :: r) ('/' :: cs) tm
    (by simp [dirfOk])
  have h2 : runFmt (.lit '-' :: r) ('/' :: cs) (applyFmt [.dirY] t tm) = none := by
    simp [runFmt]
  exact h.trans h2

theorem fmt1_fails_on_T (t : PyDateTime) (hv : validDT t = true)
    (tail : List Char) (tm : TmRaw) :
    runFmt fmt1
      (pad4Chars t.year ++ '-' :: (pad2Chars t.month ++ '-' ::
        (pad2Chars t.day ++ 'T' :: tail))) tm = none := by
  have h := runFmt_ser_append t hv [.dirY, .lit '-', .dirm, .lit '-', .dird]
    [.lit ' ', .dirH, .lit ':', .dirM, .lit ':', .dirS] ('T' :: tail) tm
    (by simp [dirfOk])
  have h2 : runFmt [FmtItem.lit ' ', .dirH, .lit ':', .dirM, .lit ':', .dirS]
      ('T' :: tail)
      (applyFmt [.dirY, .lit '-', .dirm, .lit '-', .dird] t tm) = none := by
    simp [runFmt]
  exact h.trans h2

theorem fmt3_fails_on_dot (t : PyDateTime) (hv : validDT t = true)
    (cs : List Char) (tm : TmRaw) :
    runFmt fmt3 (serFmtChars fmt2 t ++ '.' :: cs) tm = none := by
  have h := runFmt_ser_append t hv fmt2 [.lit 'Z'] ('.' :: cs) tm
    (by simp [fmt2, dirfOk])
  have h2 : runFmt [FmtItem.lit 'Z'] ('.' :: cs) (applyFmt fmt2 t tm) = none := by
    simp [runFmt]
  exact h.trans h2

theorem firstParse_ser1 (t : PyDateTime) (hv : validDT t = true) :
    firstParse TIMESTAMP_FORMATS (strftimeModel fmt1 t) =
      some ⟨t.year, t.month, t.day, t.hour, t.minute, t.second, 0⟩ := by
  have h1 : strptimeModel fmt1 (strftimeModel fmt1 t) =
      some (⟨t.year, t.month, t.day, t.hour, t.minute, t.second, 0⟩ : PyDateTime) := by
    unfold strptimeModel
    rw [show runFmt fmt1 (strftimeModel fmt1 t).toList defaultTm =
      some (applyFmt fmt1 t defaultTm) from strptime_ser_self t hv fmt1 (by decide)]
    exact mkDatetime_fields t hv 0 (by omega)
  simp only [TIMESTAMP_FORMATS, firstParse, h1]

theorem firstParse_ser2 (t : PyDateTime) (hv : validDT t = true) :
    firstParse TIMESTAMP_FORMATS (strftimeModel fmt2 t) =
      some ⟨t.year, t.month, t.day, t.hour, t.minute, t.second, 0⟩ := by
  have hf1 : strptimeModel fmt1 (strftimeModel fmt2 t) = none := by
    unfold strptimeModel
    rw [show runFmt fmt1 (strftimeModel fmt2 t).toList defaultTm = none from
      fmt1_fails_on_T t hv _ defaultTm]
    rfl
  have h2 : strptimeModel fmt2 (strftimeModel fmt2 t) =
      some (⟨t.year, t.month, t.day, t.hour, t.minute, t.second, 0⟩ : PyDateTime) := by
    unfold strptimeModel
    rw [show runFmt fmt2 (strftimeModel fmt2 t).toList defaultTm =
      some (applyFmt fmt2 t defaultTm) from strptime_ser_self t hv fmt2 (by decide)]
    exact mkDatetime_fields t hv 0 (by omega)
  simp only [TIMESTAMP_FORMATS, firstParse, hf1, h2]

theorem firstParse_ser3 (t : PyDateTime) (hv : validDT t = true) :
    firstParse TIMESTAMP_FORMATS (strftimeModel fmt3 t) =
      some ⟨t.year, t.month, t.day, t.hour, t.minute, t.second, 0⟩ := by
  have hf1 : strptimeModel fmt1 (strftimeModel fmt3 t) = none := by
    unfold strptimeModel
    rw [show runFmt fmt1 (strftimeModel fmt3 t).toList defaultTm = none from
      fmt1_fails_on_T t hv _ defaultTm]
    rfl
  have hf2 : strptimeModel fmt2 (strftimeModel fmt3 t) = none := by
    unfold strptimeModel
    rw [show runFmt fmt2 (strftimeModel fmt3 t).toList defaultTm = none from
      runFmt_ser_leftover t hv fmt2 'Z' [] defaultTm (by decide)]
    rfl
  have h3 : strptimeModel fmt3 (strftimeModel fmt3 t) =
      some (⟨t.year, t.month, t.day, t.hour, t.minute, t.second, 0⟩ : PyDateTime) := by
    unfold strptimeModel
    rw [show runFmt fmt3 (strftimeModel fmt3 t).toList defaultTm =
      some (applyFmt fmt3 t defaultTm) from strptime_ser_self t hv fmt3 (by decide)]
    exact mkDatetime_fields t hv 0 (by omega)
  simp only [TIMESTAMP_FORMATS, firstParse, hf1, hf2, h3]

theorem firstParse_ser4 (t : PyDateTime) (hv : validDT t = true) :
    firstParse TIMESTAMP_FORMATS (strftimeModel fmt4 t) =
      some ⟨t.year, t.month, t.day, t.hour, t.minute, t.second, t.usec⟩ := by
  have hf1 : strptimeModel fmt1 (strftimeModel fmt4 t) = none := by
    unfold strptimeModel
    rw [show runFmt fmt1 (strftimeModel fmt4 t).toList defaultTm = none from
      fmt1_fails_on_T t hv _ defaultTm]
    rfl
  have hf2 : strptimeModel fmt2 (strftimeModel fmt4 t) = none := by
    unfold strptimeModel
    rw [show runFmt fmt2 (strftimeModel fmt4 t).toList defaultTm = none from
      runFmt_ser_leftover t hv fmt2 '.' (pad6Chars t.usec) defaultTm (by decide)]
    rfl
  have hf3 : strptimeModel fmt3 (strftimeModel fmt4 t) = none := by
    unfold strptimeModel
    rw [show runFmt fmt3 (strftimeModel fmt4 t).toList defaultTm = none from
      fmt3_fails_on_dot t hv _ defaultTm]
    rfl
  have h4 : strptimeModel fmt4 (strftimeModel fmt4 t) =
      some (⟨t.year, t.month, t.day, t.hour, t.minute, t.second, t.usec⟩ : PyDateTime) := by
    unfold strptimeModel
    rw [show runFmt fmt4 (strftimeModel fmt4 t).toList defaultTm =
      some (applyFmt fmt4 t defaultTm) from strptime_ser_self t hv fmt4 (by decide)]
    exact mkDatetime_fields t hv t.usec (validDT_bounds t hv).2.2.2.2.2.2.2.2
  simp only [TIMESTAMP_FORMATS, firstParse, hf1, hf2, hf3, h4]

theorem firstParse_ser5 (t : PyDateTime) (hv : validDT t = true) :
    firstParse TIMESTAMP_FORMATS (strftimeModel fmt5 t) =
      some ⟨t.year, t.month, t.day, t.hour, t.minute, t.second, t.usec⟩ := by
  have hf1 : strptimeModel fmt1 (strftimeModel fmt5 t) = none := by
    unfold strptimeModel
    rw [show runFmt fmt1 (strftimeModel fmt5 t).toList defaultTm = none from
      fmt1_fails_on_T t hv _ defaultTm]
    rfl
  have hf2 : strptimeModel fmt2 (strftimeModel fmt5 t) = none := by
    unfold strptimeModel
    rw [show runFmt fmt2 (strftimeModel fmt5 t).toList defaultTm = none from
      runFmt_ser_leftover t hv fmt2 '.' (pad6Chars t.usec ++ ['Z']) defaultTm (by decide)]
    rfl
  have hf3 : strptimeModel fmt3 (strftimeModel fmt5 t) = none := by
    unfold strptimeModel
    rw [show runFmt fmt3 (strftimeModel fmt5 t).toList defaultTm = none from
      fmt3_fails_on_dot t hv _ defaultTm]
    rfl
  have hf4 : strptimeModel fmt4 (strftimeModel fmt5 t) = none := by
    unfold strptimeModel
    rw [show runFmt fmt4 (strftimeModel fmt5 t).toList defaultTm = none from
      runFmt_ser_leftover t hv fmt4 'Z' [] defaultTm (by decide)]
    rfl
  have h5 : strptimeModel fmt5 (strftimeModel fmt5 t) =
      some (⟨t.year, t.month, t.day, t.hour, t.minute, t.second, t.usec⟩ : PyDateTime) := by
    unfold strptimeModel
    rw [show runFmt fmt5 (strftimeModel fmt5 t).toList defaultTm =
      some (applyFmt fmt5 t defaultTm) from strptime_ser_self t hv fmt5 (by decide)]
    exact mkDatetime_fields t hv t.usec (validDT_bounds t hv).2.2.2.2.2.2.2.2
  simp only [TIMESTAMP_FORMATS, firstParse, hf1, hf2, hf3, hf4, h5]

theorem firstParse_ser6 (t : PyDateTime) (hv : validDT t = true) :
    firstParse TIMESTAMP_FORMATS (strftimeModel fmt6 t) =
      some ⟨t.year, t.month, t.day, t.hour, t.minute, t.second, 0⟩ := by
  have hf1 : strptimeModel fmt1 (strftimeModel fmt6 t) = none := by
    unfold strptimeModel
    rw [show runFmt fmt1 (strftimeModel fmt6 t).toList defaultTm = none from
      runFmt_dash_fmt_on_slash t hv _ _ defaultTm]
    rfl
  have hf2 : strptimeModel fmt2 (strftimeModel fmt6 t) = none := by
    unfold strptimeModel
    rw [show runFmt fmt2 (strftimeModel fmt6 t).toList defaultTm = none from
      runFmt_dash_fmt_on_slash t hv _ _ defaultTm]
    rfl
  have hf3 : strptimeModel fmt3 (strftimeModel fmt6 t) = none := by
    unfold strptimeModel
    rw [show runFmt fmt3 (strftimeModel fmt6 t).toList defaultTm = none from
      runFmt_dash_fmt_on_slash t hv _ _ defaultTm]
    rfl
  have hf4 : strptimeModel fmt4 (strftimeModel fmt6 t) = none := by
    unfold strptimeModel
    rw [show runFmt fmt4 (strftimeModel fmt6 t).toList defaultTm = none from
      runFmt_dash_fmt_on_slash t hv _ _ defaultTm]
    rfl
  have hf5 : strptimeModel fmt5 (strftimeModel fmt6 t) = none := by
    unfold strptimeModel
    rw [show runFmt fmt5 (strftimeModel fmt6 t).toList defaultTm = none from
      runFmt_dash_fmt_on_slash t hv _ _ defaultTm]
    rfl
  have h6 : strptimeModel fmt6 (strftimeModel fmt6 t) =
      some (⟨t.year, t.month, t.day, t.hour, t.minute, t.second, 0⟩ : PyDateTime) := by
    unfold strptimeModel
    rw [show runFmt fmt6 (strftimeModel fmt6 t).toList defaultTm =
      some (applyFmt fmt6 t defaultTm) from strptime_ser_self t hv fmt6 (by decide)]
    exact mkDatetime_fields t hv 0 (by omega)
  simp only [TIMESTAMP_FORMATS, firstParse, hf1, hf2, hf3, hf4, hf5, h6]

theorem firstParse_ser7 (t : PyDateTime) (hv : validDT t = true) :
    firstParse TIMESTAMP_FORMATS (strftimeModel fmt7 t) =
      some ⟨t.year, t.month, t.day, t.hour, t.minute, t.second, 0⟩ := by
  have hf1 : strptimeModel fmt1 (strftimeModel fmt7 t) = none := by
    unfold strptimeModel
    rw [show runFmt fmt1 (strftimeModel fmt7 t).toList defaultTm = none from
      runFmt_dirY_two_digits t.day _ _ defaultTm]
    rfl
  have hf2 : strptimeModel fmt2 (strftimeModel fmt7 t) = none := by
    unfold strptimeModel
    rw [show runFmt fmt2 (strftimeModel fmt7 t).toList defaultTm = none from
      runFmt_dirY_two_digits t.day _ _ defaultTm]
    rfl
  have hf3 : strptimeModel fmt3 (strftimeModel fmt7 t) = none := by
    unfold strptimeModel
    rw [show runFmt fmt3 (strftimeModel fmt7 t).toList defaultTm = none from
      runFmt_dirY_two_digits t.day _ _ defaultTm]
    rfl
  have hf4 : strptimeModel fmt4 (strftimeModel fmt7 t) = none := by
    unfold strptimeModel
    rw [show runFmt fmt4 (strftimeModel fmt7 t).toList defaultTm = none from
      runFmt_dirY_two_digits t.day _ _ defaultTm]
    rfl
  have hf5 : strptimeModel fmt5 (strftimeModel fmt7 t) = none := by
    unfold strptimeModel
    rw [show runFmt fmt5 (strftimeModel fmt7 t).toList defaultTm = none from
      runFmt_dirY_two_digits t.day _ _ defaultTm]
    rfl
  have hf6 : strptimeModel fmt6 (strftimeModel fmt7 t) = none := by
    unfold strptimeModel
    rw [show runFmt fmt6 (strftimeModel fmt7 t).toList defaultTm = none from
      runFmt_dirY_two_digits t.day _ _ defaultTm]
    rfl
  have h7 : strptimeModel fmt7 (strftimeModel fmt7 t) =
      some (⟨t.year, t.month, t.day, t.hour, t.minute, t.second, 0⟩ : PyDateTime) := by
    unfold strptimeModel
    rw [show runFmt fmt7 (strftimeModel fmt7 t).toList defaultTm =
      some (applyFmt fmt7 t defaultTm) from strptime_ser_self t hv fmt7 (by decide)]
    exact mkDatetime_fields t hv 0 (by omega)
  simp only [TIMESTAMP_FORMATS, firstParse, hf1, hf2, hf3, hf4, hf5, hf6, h7]

/-- C7: extracting a timestamp from a payload serialized with any of
the supported textual formats recovers the original timestamp, to the
format's precision: formats with a fraction directive recover
microseconds, for the others the statement applies to whole-second
timestamps. Proven for all seven formats in the code's list. -/
theorem timestamp_roundtrip (t : PyDateTime) (fmt : List FmtItem)
    (hmem : fmt ∈ TIMESTAMP_FORMATS) (hv : validDT t = true)
    (husec : fmt.contains .dirf = false → t.usec = 0) :
    firstParse TIMESTAMP_FORMATS (strftimeModel fmt t) = some t := by
  have heta : ∀ u, u = t.usec →
      (⟨t.year, t.month, t.day, t.hour, t.minute, t.second, u⟩ : PyDateTime) = t := by
    intro u hu
    rw [hu]
  simp only [TIMESTAMP_FORMATS, List.mem_cons, List.not_mem_nil, or_false] at hmem
  rcases hmem with h | h | h | h | h | h | h <;> subst h
  · rw [firstParse_ser1 t hv]
    exact congrArg some (heta 0 (husec (by decide)).symm)
  · rw [firstParse_ser2 t hv]
    exact congrArg some (heta 0 (husec (by decide)).symm)
  · rw [firstParse_ser3 t hv]
    exact congrArg some (heta 0 (husec (by decide)).symm)
  · rw [firstParse_ser4 t hv]
  · rw [firstParse_ser5 t hv]
  · rw [firstParse_ser6 t hv]
    exact congrArg some (heta 0 (husec (by decide)).symm)
  · rw [firstParse_ser7 t hv]
    exact congrArg some (heta 0 (husec (by decide)).symm)

/-- Closed instance of `timestamp_roundtrip`: 2025-12-23 18:13:31
serialized with the first format round-trips. -/
theorem timestamp_roundtrip_witness :
    firstParse TIMESTAMP_FORMATS
      (strftimeModel fmt1 ⟨2025, 12, 23, 18, 13, 31, 0⟩) =
      some ⟨2025, 12, 23, 18, 13, 31, 0⟩ :=
  timestamp_roundtrip ⟨2025, 12, 23, 18, 13, 31, 0⟩ fmt1 (by decide) (by decide)
    (fun _ => rfl)

end BeeGreen
